import Mathlib

/-!
Verification of the `BottomNavigation` tab-animation controller from
`src/components/BottomNavigation.js`.

The JavaScript component is shallowly embedded: animated values become
rational numbers, the `Animated.parallel([...timing])` call becomes an
explicit list of `Timing` records, the completion callback becomes a pure
state transformer, and the callbacks fired toward the host
(`onIndexChange`, `onTabPress`) become an explicit `Output` list.
-/

/-- A navigation route.  Only the `key` attribute is relevant to the
controller logic (colors/titles/icons are consumed by the visual layer). -/
structure Route where
  key : String
deriving DecidableEq, Repr, Inhabited

/-- `NavigationState` as in the source: an active index and a route list. -/
structure NavigationState where
  index : ℕ
  routes : List Route
deriving DecidableEq, Repr

/-- `MIN_RIPPLE_SCALE` constant (source line 131): `0.1`. -/
def MIN_RIPPLE_SCALE : ℚ := 1 / 10

/-- `_getShiftAmount(activeIndex, currentIndex, numberOfItems)`
(source lines 239-259), translated branch for branch. -/
def getShiftAmount (activeIndex currentIndex numberOfItems : ℤ) : ℤ :=
  if activeIndex < currentIndex then 2
  else if activeIndex > currentIndex then -2
  else if activeIndex = currentIndex then
    if currentIndex = 0 then 1
    else if currentIndex = numberOfItems - 1 then -1
    else 0
  else 0

/-- Container layout state (`this.state.layout`). -/
structure Layout where
  height : ℚ
  width : ℚ
  measured : Bool
deriving DecidableEq, Repr

/-- The controller's animated state (`this.state`): `tabs` are the per-route
focus weights, `shifts` the per-route shift weights, `index` the continuous
active-index value, `ripple` the ripple progress. -/
structure AnimationState where
  tabs : List ℚ
  shifts : List ℚ
  index : ℚ
  ripple : ℚ
  layout : Layout
deriving DecidableEq, Repr

/-- Identifies one animated cell of the controller state. -/
inductive Cell where
  | tab (i : ℕ)
  | shift (i : ℕ)
  | index
  | ripple
deriving DecidableEq, Repr

/-- One `Animated.timing(cell, {toValue, duration})` entry of a plan. -/
structure Timing where
  cell : Cell
  toValue : ℚ
  duration : ℕ
deriving DecidableEq, Repr

/-- Constructor (source lines 187-202): focus weight 1 on the active index,
0 elsewhere; shift weights from `_getShiftAmount`; `index` tracking the
active index; ripple at `MIN_RIPPLE_SCALE`; unmeasured zero layout. -/
def initialState (nav : NavigationState) : AnimationState :=
  { tabs := (List.range nav.routes.length).map
      (fun i => if i = nav.index then (1 : ℚ) else 0),
    shifts := (List.range nav.routes.length).map
      (fun (i : ℕ) => ((getShiftAmount nav.index i nav.routes.length : ℤ) : ℚ)),
    index := nav.index,
    ripple := MIN_RIPPLE_SCALE,
    layout := { height := 0, width := 0, measured := false } }

/-- The parallel animation plan built in `componentDidUpdate`
(source lines 210-229): per-route focus timings (duration 200), per-route
shift timings (duration 200), and one ripple timing toward 1 (duration 300). -/
def buildPlan (routes : List Route) (index : ℕ) : List Timing :=
  ((List.range routes.length).map
    (fun i => ⟨Cell.tab i, if i = index then (1 : ℚ) else 0, 200⟩))
  ++ ((List.range routes.length).map
    (fun i => ⟨Cell.shift i, ((getShiftAmount index i routes.length : ℤ) : ℚ), 200⟩))
  ++ [⟨Cell.ripple, 1, 300⟩]

/-- The transition body of `componentDidUpdate` (source lines 206-229): the
synchronous `ripple.setValue(MIN_RIPPLE_SCALE)` followed by emission of the
parallel plan.  This is the spec's `onIndexChange(prev, new, n, colors)`
operation, invocable with any target index. -/
def onIndexChange (newIndex : ℕ) (routes : List Route) (st : AnimationState) :
    AnimationState × List Timing :=
  ({ st with ripple := MIN_RIPPLE_SCALE }, buildPlan routes newIndex)

/-- The completion callback passed to `.start` (source lines 230-235):
force-set every focus weight by position, set the index value, reset the
ripple.  `st` is whatever state the animation executor left behind. -/
def onPlanComplete (index : ℕ) (st : AnimationState) : AnimationState :=
  { st with
    tabs := st.tabs.mapIdx (fun i _ => if i = index then (1 : ℚ) else 0),
    index := (index : ℚ),
    ripple := MIN_RIPPLE_SCALE }

/-- `componentDidUpdate` (source lines 204-237): the transition runs only
when the external index actually changed; otherwise no state change and no
plan. -/
def componentDidUpdate (prevIndex : ℕ) (nav : NavigationState)
    (st : AnimationState) : AnimationState × Option (List Timing) :=
  if prevIndex ≠ nav.index then
    let r := onIndexChange nav.index nav.routes st
    (r.1, some r.2)
  else (st, none)

/-- A single settled transition: the executor drives the cell to its
target value. -/
def applyTiming (st : AnimationState) (t : Timing) : AnimationState :=
  match t.cell with
  | Cell.tab i => { st with tabs := st.tabs.set i t.toValue }
  | Cell.shift i => { st with shifts := st.shifts.set i t.toValue }
  | Cell.index => { st with index := t.toValue }
  | Cell.ripple => { st with ripple := t.toValue }

/-- A well-behaved executor settles every transition of the plan. -/
def runPlan (st : AnimationState) (plan : List Timing) : AnimationState :=
  plan.foldl applyTiming st

/-- Callbacks fired toward the host.  `indexChange` carries an integer
because `_jumpTo` can produce `-1`; `tabPress` carries the route looked up
at the pressed index (`none` models JavaScript `undefined`). -/
inductive Output where
  | indexChange (i : ℤ)
  | tabPress (r : Option Route)
deriving DecidableEq, Repr

/-- `_handleTabPress(index)` (source lines 270-279): `onIndexChange` fires
only when the pressed index differs from the current one; `onTabPress`, when
supplied, fires on every press with `routes[index]`. -/
def handleTabPress (onTabPressGiven : Bool) (nav : NavigationState)
    (index : ℕ) : List Output :=
  (if index ≠ nav.index then [Output.indexChange (index : ℤ)] else [])
  ++ (if onTabPressGiven then [Output.tabPress nav.routes[index]?] else [])

/-- `Array.prototype.findIndex` specialised to key lookup: the index of the
first route whose key matches, or `-1` when none does. -/
def findIndexKey (key : String) : List Route → ℤ
  | [] => -1
  | r :: rs =>
    if r.key = key then 0
    else
      let k := findIndexKey key rs
      if k = -1 then -1 else k + 1

/-- The index `_jumpTo(key)` resolves (source lines 282-284). -/
def jumpTo (nav : NavigationState) (key : String) : ℤ :=
  findIndexKey key nav.routes

/-- `_jumpTo(key)` (source lines 281-287): the resolved index — valid or
`-1` — is passed to `onIndexChange` unconditionally. -/
def jumpToOutputs (nav : NavigationState) (key : String) : List Output :=
  [Output.indexChange (jumpTo nav key)]

/-- `shifting` mode resolution (source lines 295-298): an explicit boolean
wins, else the default `routes.length > 3`. -/
def effectiveShifting (shifting : Option Bool) (routeCount : ℕ) : Bool :=
  match shifting with
  | some b => b
  | none => decide (routeCount > 3)

/-- `maxTabWidth` (source line 314). -/
def maxTabWidth (routeCount : ℕ) : ℚ :=
  if routeCount > 3 then 96 else 168

/-- `tabWidth` (source line 315): `Math.min(layout.width / routes.length,
maxTabWidth)`. -/
def tabWidth (width : ℚ) (routeCount : ℕ) : ℚ :=
  min (width / (routeCount : ℚ)) (maxTabWidth routeCount)

/-- `_handleLayout` (source lines 261-268). -/
def handleLayout (w h : ℚ) (st : AnimationState) : AnimationState :=
  { st with layout := { height := h, width := w, measured := true } }

/-- The root view's `pointerEvents` gate (source line 325): touch input is
accepted only once the layout has been measured. -/
def pointerEventsEnabled (st : AnimationState) : Bool :=
  st.layout.measured

/-- External events delivered to the component. -/
inductive Event where
  | layout (w h : ℚ)
  | press (i : ℕ)
deriving DecidableEq, Repr

/-- Whether an event is a layout measurement. -/
def Event.isLayout : Event → Bool
  | Event.layout _ _ => true
  | Event.press _ => false

/-- One event step: a layout event records the measurement; a press reaches
`_handleTabPress` only when the `pointerEvents` gate is open. -/
def step (onTabPressGiven : Bool) (nav : NavigationState)
    (st : AnimationState) : Event → AnimationState × List Output
  | Event.layout w h => (handleLayout w h st, [])
  | Event.press i =>
    if pointerEventsEnabled st then (st, handleTabPress onTabPressGiven nav i)
    else (st, [])

/-- Run a trace of events, collecting every output fired toward the host. -/
def runEvents (onTabPressGiven : Bool) (nav : NavigationState)
    (st : AnimationState) : List Event → AnimationState × List Output
  | [] => (st, [])
  | e :: es =>
    let r := step onTabPressGiven nav st e
    let rest := runEvents onTabPressGiven nav r.1 es
    (rest.1, r.2 ++ rest.2)

/-- The rest state of the controller for a given navigation state: focus
weight 1 exactly on the active index, shift weights at their
`_getShiftAmount` values, index value at the active index, ripple at
`MIN_RIPPLE_SCALE`.  This is the constructor state (up to layout) and is
re-established by every completed transition. -/
def steadyState (nav : NavigationState) (lay : Layout) : AnimationState :=
  { tabs := (List.range nav.routes.length).map
      (fun i => if i = nav.index then (1 : ℚ) else 0),
    shifts := (List.range nav.routes.length).map
      (fun (i : ℕ) => ((getShiftAmount nav.index i nav.routes.length : ℤ) : ℚ)),
    index := (nav.index : ℚ),
    ripple := MIN_RIPPLE_SCALE,
    layout := lay }

/-- The three-route list used in the spec's `jumpTo` examples. -/
def routesABC : List Route := [⟨"a"⟩, ⟨"b"⟩, ⟨"c"⟩]

/-- Setting a list entry to its current value is the identity. -/
theorem set_self_of_getElem (l : List ℚ) (i : ℕ) (v : ℚ)
    (hi : i < l.length) (h : l[i] = v) : l.set i v = l := by
  apply List.ext_getElem
  · simp
  · intro n h1 h2
    rw [List.getElem_set]
    split
    · next heq => subst heq; exact h.symm
    · rfl

/-- `mapIdx` with a function ignoring the element is a map over positions. -/
theorem mapIdx_fun_const (l : List ℚ) (g : ℕ → ℚ) :
    l.mapIdx (fun i _ => g i) = (List.range l.length).map g := by
  apply List.ext_get
  · simp
  · intro n h1 h2
    rw [List.get_mapIdx _ _ _ (by simpa using h1)]
    simp

/-- A plan every transition of which fixes the state leaves it unchanged. -/
theorem runPlan_fix (plan : List Timing) (st : AnimationState)
    (h : ∀ t ∈ plan, applyTiming st t = st) : runPlan st plan = st := by
  induction plan with
  | nil => rfl
  | cons t ts ih =>
    have ht := h t (List.mem_cons_self t ts)
    simp only [runPlan, List.foldl_cons, ht]
    exact ih fun t' ht' => h t' (List.mem_cons_of_mem t ht')

/-- C1: `_getShiftAmount` is a pure total function: for all integers `a`,
`c` and all `numberOfItems >= 1` it returns 2 when `a < c`, -2 when
`a > c`, and for `a = c` returns 1 if `c = 0`, -1 if `c = n - 1`, else 0;
the spec's five concrete cases hold. -/
theorem getShiftAmount_spec (a c n : ℤ) (hn : 1 ≤ n) :
    (a < c → getShiftAmount a c n = 2) ∧
    (a > c → getShiftAmount a c n = -2) ∧
    (a = c → getShiftAmount a c n =
      (if c = 0 then 1 else if c = n - 1 then -1 else 0)) ∧
    getShiftAmount 0 2 4 = 2 ∧ getShiftAmount 2 0 4 = -2 ∧
    getShiftAmount 0 0 4 = 1 ∧ getShiftAmount 3 3 4 = -1 ∧
    getShiftAmount 1 1 4 = 0 := by
  refine ⟨?_, ?_, ?_, by decide, by decide, by decide, by decide, by decide⟩
  · intro h; simp [getShiftAmount, h]
  · intro h; simp [getShiftAmount, h, not_lt_of_gt h]
  · intro h; subst h; simp [getShiftAmount]

/-- Witness for `getShiftAmount_spec` at `a = 0`, `c = 2`, `n = 4`. -/
theorem getShiftAmount_spec_witness : getShiftAmount 0 2 4 = 2 :=
  (getShiftAmount_spec 0 2 4 (by decide)).1 (by decide)

/-- C8: an explicit `shifting` boolean is used unchanged; when unset the
default is `routeCount > 3`, so 3 routes give `false` and 4 give `true`. -/
theorem effectiveShifting_spec :
    (∀ (b : Bool) (n : ℕ), effectiveShifting (some b) n = b) ∧
    (∀ n : ℕ, effectiveShifting none n = decide (n > 3)) ∧
    effectiveShifting none 3 = false ∧ effectiveShifting none 4 = true :=
  ⟨fun _ _ => rfl, fun _ => rfl, by decide, by decide⟩

/-- C9: for any measured width and `routeCount >= 1`, `maxTabWidth` is 96
when there are more than 3 routes and 168 otherwise, and the per-tab width
is `min (width / routeCount) maxTabWidth`; in particular width 400 with 5
routes gives tab width 80, and 2 routes give `maxTabWidth = 168`. -/
theorem tabWidth_spec (width : ℚ) (n : ℕ) (hn : 1 ≤ n) :
    maxTabWidth n = (if n > 3 then 96 else 168) ∧
    tabWidth width n = min (width / (n : ℚ)) (maxTabWidth n) ∧
    tabWidth 400 5 = 80 ∧ maxTabWidth 2 = 168 := by
  refine ⟨rfl, rfl, ?_, by norm_num [maxTabWidth]⟩
  norm_num [tabWidth, maxTabWidth]

/-- Witness for `tabWidth_spec` at width 400 with 5 routes. -/
theorem tabWidth_spec_witness : tabWidth 400 5 = 80 :=
  (tabWidth_spec 400 5 (by decide)).2.2.1

/-- C5 counterexample: pressing the currently active tab (index 1 with
active index 1) fires no `onIndexChange` — with no `onTabPress` supplied the
press produces no host callback at all, refuting "the callback fires
whenever a tab is pressed, including when i equals the active index". -/
theorem handleTabPress_counterexample :
    handleTabPress false ⟨1, routesABC⟩ 1 = [] ∧
    Output.indexChange 1 ∉ handleTabPress true ⟨1, routesABC⟩ 1 := by decide

/-- C5 (amended): a press on index `i` fires `onIndexChange i` exactly when
`i` differs from the current active index; a press on the active index
fires only the optional `onTabPress`. -/
theorem handleTabPress_spec (otp : Bool) (nav : NavigationState) (i : ℕ) :
    (i ≠ nav.index →
      handleTabPress otp nav i =
        Output.indexChange (i : ℤ) ::
          (if otp then [Output.tabPress nav.routes[i]?] else [])) ∧
    (i = nav.index →
      handleTabPress otp nav i =
        (if otp then [Output.tabPress nav.routes[i]?] else [])) := by
  constructor
  · intro h; simp [handleTabPress, h]
  · intro h; simp [handleTabPress, h]

/-- Witness for `handleTabPress_spec`: pressing index 1 while index 0 is
active fires `onIndexChange 1` followed by `onTabPress`. -/
theorem handleTabPress_spec_witness :
    handleTabPress true ⟨0, routesABC⟩ 1 =
      Output.indexChange (1 : ℤ) ::
        (if true then [Output.tabPress (routesABC[1]?)] else []) :=
  (handleTabPress_spec true ⟨0, routesABC⟩ 1).1 (by decide)

/-- C7: when `onTabPress` is supplied, every press fires it with the route
at the pressed index, whatever the active index; when it is not supplied no
`tabPress` callback is ever fired. -/
theorem onTabPress_always (nav : NavigationState) (i : ℕ) :
    Output.tabPress nav.routes[i]? ∈ handleTabPress true nav i ∧
    (∀ hi : i < nav.routes.length,
      nav.routes[i]? = some (nav.routes.get ⟨i, hi⟩)) ∧
    (∀ r : Option Route, Output.tabPress r ∉ handleTabPress false nav i) := by
  refine ⟨?_, ?_, ?_⟩
  · simp [handleTabPress]
  · intro hi; simp [List.getElem?_eq_getElem hi]
  · intro r hr
    simp only [handleTabPress, if_neg Bool.false_ne_true, List.append_nil] at hr
    rcases Decidable.em (i = nav.index) with h | h <;> simp [h] at hr

/-- Witness for `onTabPress_always`: a press on index 1 of the three-route
list fires `onTabPress` with route "b". -/
theorem onTabPress_always_witness :
    Output.tabPress ((⟨0, routesABC⟩ : NavigationState).routes[1]?) ∈
      handleTabPress true ⟨0, routesABC⟩ 1 ∧
    (⟨0, routesABC⟩ : NavigationState).routes[1]? = some ⟨"b"⟩ :=
  ⟨(onTabPress_always ⟨0, routesABC⟩ 1).1,
   (onTabPress_always ⟨0, routesABC⟩ 1).2.1 (by decide)⟩

/-- A key matching no route resolves to -1. -/
theorem findIndexKey_not_found (key : String) (l : List Route)
    (h : ∀ r ∈ l, r.key ≠ key) : findIndexKey key l = -1 := by
  induction l with
  | nil => rfl
  | cons r rs ih =>
    have hr : r.key ≠ key := h r (List.mem_cons_self r rs)
    have hrs := ih fun r' hr' => h r' (List.mem_cons_of_mem r hr')
    simp [findIndexKey, hr, hrs]

/-- A key matching some route resolves to the first matching position. -/
theorem findIndexKey_found (key : String) (l : List Route)
    (h : ∃ r ∈ l, r.key = key) :
    ∃ i : ℕ, findIndexKey key l = (i : ℤ) ∧
      ∃ hi : i < l.length, (l.get ⟨i, hi⟩).key = key ∧
        ∀ j, (hj : j < i) → ∀ hj' : j < l.length,
          (l.get ⟨j, hj'⟩).key ≠ key := by
  induction l with
  | nil => simp at h
  | cons r rs ih =>
    rcases Decidable.em (r.key = key) with hr | hr
    · exact ⟨0, by simp [findIndexKey, hr], by simp, by simpa using hr,
        fun j hj _ => absurd hj (Nat.not_lt_zero j)⟩
    · have hex : ∃ r' ∈ rs, r'.key = key := by
        rcases h with ⟨r', hr', hk⟩
        rcases List.mem_cons.mp hr' with rfl | hmem
        · exact absurd hk hr
        · exact ⟨r', hmem, hk⟩
      rcases ih hex with ⟨i, hfi, hi, hk, hmin⟩
      refine ⟨i + 1, ?_, by simpa using Nat.succ_lt_succ hi, by simpa using hk, ?_⟩
      · have hne : findIndexKey key rs ≠ -1 := by rw [hfi]; omega
        simp only [findIndexKey, if_neg hr, if_neg hne, hfi]
        push_cast; ring
      · intro j hj hj'
        match j with
        | 0 => simpa using hr
        | Nat.succ j' =>
          have hj'' : j' < rs.length := by simpa using hj'
          simpa using hmin j' (Nat.lt_of_succ_lt_succ hj) hj''

/-- C4 counterexample: with routes `a`, `b`, `c`, `jumpTo "z"` resolves to
the invalid index -1, yet `onIndexChange` is still fired with -1 — refuting
"onIndexChange is fired toward the host only when jumpTo resolves a valid
index". -/
theorem jumpTo_counterexample :
    jumpTo ⟨0, routesABC⟩ "z" = -1 ∧
    Output.indexChange (-1) ∈ jumpToOutputs ⟨0, routesABC⟩ "z" ∧
    ¬(0 ≤ jumpTo ⟨0, routesABC⟩ "z") := by decide

/-- C4 (amended): `jumpTo` resolves a key by linear scan — a present key
yields the first index whose route carries it (so `jumpTo "b"` on routes
`a`, `b`, `c` gives 1), an absent key yields -1 — and `onIndexChange` is
fired unconditionally with the resolved index, valid or not. -/
theorem jumpTo_spec (nav : NavigationState) (key : String) :
    jumpToOutputs nav key = [Output.indexChange (jumpTo nav key)] ∧
    ((∀ r ∈ nav.routes, r.key ≠ key) → jumpTo nav key = -1) ∧
    ((∃ r ∈ nav.routes, r.key = key) →
      ∃ i : ℕ, jumpTo nav key = (i : ℤ) ∧
        ∃ hi : i < nav.routes.length, (nav.routes.get ⟨i, hi⟩).key = key ∧
          ∀ j, (hj : j < i) → ∀ hj' : j < nav.routes.length,
            (nav.routes.get ⟨j, hj'⟩).key ≠ key) ∧
    jumpTo ⟨0, routesABC⟩ "b" = 1 := by
  exact ⟨rfl, findIndexKey_not_found key nav.routes,
    findIndexKey_found key nav.routes, by decide⟩

/-- Witness for `jumpTo_spec`: the unknown key "z" resolves to -1 on the
three-route list. -/
theorem jumpTo_spec_witness : jumpTo ⟨0, routesABC⟩ "z" = -1 :=
  (jumpTo_spec ⟨0, routesABC⟩ "z").2.1 (by decide)

/-- C2: when the external index changes, `componentDidUpdate` synchronously
resets only the ripple to `MIN_RIPPLE_SCALE` (= 0.1) and emits one parallel
plan that contains, for every route index `i`, a focus timing toward
`1` or `0` with duration 200 and a shift timing toward `_getShiftAmount`
with duration 200, plus one ripple timing toward 1 with duration 300 — and
nothing else. -/
theorem componentDidUpdate_plan (prevIndex : ℕ) (nav : NavigationState)
    (st : AnimationState) (h : prevIndex ≠ nav.index) :
    MIN_RIPPLE_SCALE = 1 / 10 ∧
    (componentDidUpdate prevIndex nav st).1 =
      { st with ripple := MIN_RIPPLE_SCALE } ∧
    ∃ plan, (componentDidUpdate prevIndex nav st).2 = some plan ∧
      (∀ i, i < nav.routes.length →
        (⟨Cell.tab i, if i = nav.index then (1 : ℚ) else 0, 200⟩ : Timing)
          ∈ plan ∧
        (⟨Cell.shift i,
          ((getShiftAmount nav.index i nav.routes.length : ℤ) : ℚ), 200⟩ :
            Timing) ∈ plan) ∧
      (⟨Cell.ripple, 1, 300⟩ : Timing) ∈ plan ∧
      (∀ t ∈ plan,
        (∃ i, i < nav.routes.length ∧
          (t = (⟨Cell.tab i, if i = nav.index then (1 : ℚ) else 0, 200⟩ :
            Timing) ∨
           t = (⟨Cell.shift i,
             ((getShiftAmount nav.index i nav.routes.length : ℤ) : ℚ), 200⟩ :
               Timing))) ∨
        t = (⟨Cell.ripple, 1, 300⟩ : Timing)) := by
  refine ⟨rfl, ?_, buildPlan nav.routes nav.index, ?_, ?_, ?_, ?_⟩
  · simp [componentDidUpdate, h, onIndexChange]
  · simp [componentDidUpdate, h, onIndexChange]
  · intro i hi
    constructor
    · apply List.mem_append_left
      apply List.mem_append_left
      exact List.mem_map.mpr ⟨i, List.mem_range.mpr hi, rfl⟩
    · apply List.mem_append_left
      apply List.mem_append_right
      exact List.mem_map.mpr ⟨i, List.mem_range.mpr hi, rfl⟩
  · apply List.mem_append_right; simp
  · intro t ht
    rcases List.mem_append.mp ht with hl | hr
    · rcases List.mem_append.mp hl with h1 | h2
      · rcases List.mem_map.mp h1 with ⟨i, hi, rfl⟩
        exact Or.inl ⟨i, List.mem_range.mp hi, Or.inl rfl⟩
      · rcases List.mem_map.mp h2 with ⟨i, hi, rfl⟩
        exact Or.inl ⟨i, List.mem_range.mp hi, Or.inr rfl⟩
    · exact Or.inr (by simpa using hr)

/-- Witness for `componentDidUpdate_plan`: index change from 0 to 1 on the
three-route list resets the ripple of the constructor state. -/
theorem componentDidUpdate_plan_witness :
    (componentDidUpdate 0 ⟨1, routesABC⟩ (initialState ⟨0, routesABC⟩)).1 =
      { initialState ⟨0, routesABC⟩ with ripple := MIN_RIPPLE_SCALE } :=
  (componentDidUpdate_plan 0 ⟨1, routesABC⟩ (initialState ⟨0, routesABC⟩)
    (by decide)).2.1

/-- C3: whatever state the executor left behind, the completion callback
force-sets every focus weight to 1 on the new index and 0 elsewhere
(preserving the cell count), sets the index value to the new index, and
resets the ripple to `MIN_RIPPLE_SCALE`. -/
theorem completion_convergence (newIndex : ℕ) (st : AnimationState) :
    (∀ i, (hi : i < (onPlanComplete newIndex st).tabs.length) →
      (onPlanComplete newIndex st).tabs.get ⟨i, hi⟩ =
        if i = newIndex then 1 else 0) ∧
    (onPlanComplete newIndex st).tabs.length = st.tabs.length ∧
    (onPlanComplete newIndex st).index = (newIndex : ℚ) ∧
    (onPlanComplete newIndex st).ripple = MIN_RIPPLE_SCALE := by
  refine ⟨?_, by simp [onPlanComplete], rfl, rfl⟩
  intro i hi
  have hi' : i < st.tabs.length := by
    simpa [onPlanComplete] using hi
  simp only [onPlanComplete]
  exact List.get_mapIdx st.tabs
    (fun i _ => if i = newIndex then (1 : ℚ) else 0) i hi'

/-- Witness for `completion_convergence` at new index 1 with the
constructor state for active index 0. -/
theorem completion_convergence_witness :
    (onPlanComplete 1 (initialState ⟨0, routesABC⟩)).tabs.get
        ⟨0, by decide⟩ = 0 ∧
    (onPlanComplete 1 (initialState ⟨0, routesABC⟩)).ripple =
      MIN_RIPPLE_SCALE :=
  ⟨(completion_convergence 1 (initialState ⟨0, routesABC⟩)).1 0 (by decide),
   (completion_convergence 1 (initialState ⟨0, routesABC⟩)).2.2.2⟩


/-- The length of the rest-state focus-weight list. -/
theorem steadyState_tabs_length (nav : NavigationState) (lay : Layout) :
    (steadyState nav lay).tabs.length = nav.routes.length := by
  simp only [steadyState, List.length_map, List.length_range]

/-- The length of the rest-state shift-weight list. -/
theorem steadyState_shifts_length (nav : NavigationState) (lay : Layout) :
    (steadyState nav lay).shifts.length = nav.routes.length := by
  simp only [steadyState, List.length_map, List.length_range]

/-- The rest-state focus weight at a valid index. -/
theorem steadyState_tabs_getElem (nav : NavigationState) (lay : Layout)
    (i : ℕ) (hi : i < (steadyState nav lay).tabs.length) :
    (steadyState nav lay).tabs[i] =
      (if i = nav.index then (1 : ℚ) else 0) := by
  simp only [steadyState, List.getElem_map, List.getElem_range]

/-- The rest-state shift weight at a valid index. -/
theorem steadyState_shifts_getElem (nav : NavigationState) (lay : Layout)
    (i : ℕ) (hi : i < (steadyState nav lay).shifts.length) :
    (steadyState nav lay).shifts[i] =
      ((getShiftAmount nav.index i nav.routes.length : ℤ) : ℚ) := by
  simp only [steadyState, List.getElem_map, List.getElem_range]

/-- C6: a transition toward the already-active index, started from the rest
state, still resets the ripple to `MIN_RIPPLE_SCALE`; every focus and shift
timing of its plan targets the cell's current rest value; and the
post-completion state equals the pre-call state (in particular, equal
outside the ripple, which returns to its rest value `MIN_RIPPLE_SCALE`). -/
theorem onIndexChange_idempotent (nav : NavigationState) (lay : Layout) :
    (onIndexChange nav.index nav.routes (steadyState nav lay)).1 =
      steadyState nav lay ∧
    (onIndexChange nav.index nav.routes (steadyState nav lay)).1.ripple =
      MIN_RIPPLE_SCALE ∧
    (∀ t ∈ (onIndexChange nav.index nav.routes (steadyState nav lay)).2, ∀ i,
      (t.cell = Cell.tab i → i < (steadyState nav lay).tabs.length ∧
        t.toValue = (steadyState nav lay).tabs.getD i 0) ∧
      (t.cell = Cell.shift i → i < (steadyState nav lay).shifts.length ∧
        t.toValue = (steadyState nav lay).shifts.getD i 0)) ∧
    onPlanComplete nav.index
        (runPlan (onIndexChange nav.index nav.routes (steadyState nav lay)).1
          (onIndexChange nav.index nav.routes (steadyState nav lay)).2) =
      steadyState nav lay := by
  have hfix : (onIndexChange nav.index nav.routes (steadyState nav lay)).1 =
      steadyState nav lay := rfl
  refine ⟨hfix, rfl, ?_, ?_⟩
  · intro t ht i
    simp only [onIndexChange, buildPlan] at ht
    rcases List.mem_append.mp ht with hl | hr
    · rcases List.mem_append.mp hl with h1 | h2
      · rcases List.mem_map.mp h1 with ⟨i0, hi0, rfl⟩
        have hlen : i0 < (steadyState nav lay).tabs.length := by
          rw [steadyState_tabs_length]; exact List.mem_range.mp hi0
        constructor
        · intro hc
          obtain rfl : i0 = i := by injection hc
          refine ⟨hlen, ?_⟩
          rw [List.getD_eq_getElem _ 0 hlen, steadyState_tabs_getElem]
        · intro hc
          exact absurd hc (by simp)
      · rcases List.mem_map.mp h2 with ⟨i0, hi0, rfl⟩
        have hlen : i0 < (steadyState nav lay).shifts.length := by
          rw [steadyState_shifts_length]; exact List.mem_range.mp hi0
        constructor
        · intro hc
          exact absurd hc (by simp)
        · intro hc
          obtain rfl : i0 = i := by injection hc
          refine ⟨hlen, ?_⟩
          rw [List.getD_eq_getElem _ 0 hlen, steadyState_shifts_getElem]
    · have ht' : t = (⟨Cell.ripple, 1, 300⟩ : Timing) := by simpa using hr
      subst ht'
      exact ⟨fun hc => absurd hc (by simp), fun hc => absurd hc (by simp)⟩
  · rw [hfix]
    have hA : runPlan (steadyState nav lay)
        ((List.range nav.routes.length).map fun i =>
          (⟨Cell.tab i, if i = nav.index then (1 : ℚ) else 0, 200⟩ :
            Timing)) = steadyState nav lay := by
      apply runPlan_fix
      intro t ht
      rcases List.mem_map.mp ht with ⟨i0, hi0, rfl⟩
      have h1 : i0 < (steadyState nav lay).tabs.length := by
        rw [steadyState_tabs_length]; exact List.mem_range.mp hi0
      simp only [applyTiming]
      rw [set_self_of_getElem _ _ _ h1 (steadyState_tabs_getElem nav lay i0 h1)]
    have hB : runPlan (steadyState nav lay)
        ((List.range nav.routes.length).map fun i =>
          (⟨Cell.shift i,
            ((getShiftAmount nav.index i nav.routes.length : ℤ) : ℚ), 200⟩ :
              Timing)) = steadyState nav lay := by
      apply runPlan_fix
      intro t ht
      rcases List.mem_map.mp ht with ⟨i0, hi0, rfl⟩
      have h1 : i0 < (steadyState nav lay).shifts.length := by
        rw [steadyState_shifts_length]; exact List.mem_range.mp hi0
      simp only [applyTiming]
      rw [set_self_of_getElem _ _ _ h1
        (steadyState_shifts_getElem nav lay i0 h1)]
    have hrun : runPlan (steadyState nav lay)
        (onIndexChange nav.index nav.routes (steadyState nav lay)).2 =
        { steadyState nav lay with ripple := 1 } := by
      simp only [onIndexChange, buildPlan, runPlan, List.foldl_append]
      rw [show List.foldl applyTiming (steadyState nav lay)
          ((List.range nav.routes.length).map fun i =>
            (⟨Cell.tab i, if i = nav.index then (1 : ℚ) else 0, 200⟩ :
              Timing)) = steadyState nav lay from hA]
      rw [show List.foldl applyTiming (steadyState nav lay)
          ((List.range nav.routes.length).map fun i =>
            (⟨Cell.shift i,
              ((getShiftAmount nav.index i nav.routes.length : ℤ) : ℚ),
              200⟩ : Timing)) = steadyState nav lay from hB]
      rfl
    rw [hrun]
    simp only [onPlanComplete]
    rw [mapIdx_fun_const]
    rw [show ({ steadyState nav lay with ripple := 1 } :
      AnimationState).tabs.length = nav.routes.length from
      steadyState_tabs_length nav lay]
    rfl

/-- Witness for `onIndexChange_idempotent`: a no-change transition toward
index 0 on the three-route rest state — the tab-0 focus timing targets the
current rest value and completion restores the rest state exactly. -/
theorem onIndexChange_idempotent_witness :
    ((⟨Cell.tab 0, (1 : ℚ), 200⟩ : Timing) ∈
      (onIndexChange 0 routesABC
        (steadyState ⟨0, routesABC⟩ ⟨0, 0, false⟩)).2) ∧
    (0 < (steadyState ⟨0, routesABC⟩ ⟨0, 0, false⟩).tabs.length ∧
      (⟨Cell.tab 0, (1 : ℚ), 200⟩ : Timing).toValue =
        (steadyState ⟨0, routesABC⟩ ⟨0, 0, false⟩).tabs.getD 0 0) ∧
    onPlanComplete 0
        (runPlan
          (onIndexChange 0 routesABC
            (steadyState ⟨0, routesABC⟩ ⟨0, 0, false⟩)).1
          (onIndexChange 0 routesABC
            (steadyState ⟨0, routesABC⟩ ⟨0, 0, false⟩)).2) =
      steadyState ⟨0, routesABC⟩ ⟨0, 0, false⟩ :=
  ⟨by decide,
   ((onIndexChange_idempotent ⟨0, routesABC⟩ ⟨0, 0, false⟩).2.2.1
     ⟨Cell.tab 0, (1 : ℚ), 200⟩ (by decide) 0).1 rfl,
   (onIndexChange_idempotent ⟨0, routesABC⟩ ⟨0, 0, false⟩).2.2.2⟩

/-- Starting unmeasured, a trace without layout events stays unmeasured and
fires no host callback. -/
theorem runEvents_no_layout (otp : Bool) (nav : NavigationState)
    (st : AnimationState) (evs : List Event)
    (hst : st.layout.measured = false)
    (h : ∀ e ∈ evs, e.isLayout = false) :
    (runEvents otp nav st evs).1.layout.measured = false ∧
    (runEvents otp nav st evs).2 = [] := by
  induction evs generalizing st with
  | nil => exact ⟨hst, rfl⟩
  | cons e es ih =>
    cases e with
    | layout w hgt =>
      exact absurd (h _ (List.mem_cons_self _ es)) (by simp [Event.isLayout])
    | press i =>
      have hstep : step otp nav st (Event.press i) = (st, []) := by
        simp [step, pointerEventsEnabled, hst]
      have hrest := ih st hst fun e' he' => h e' (List.mem_cons_of_mem _ he')
      simpa [runEvents, hstep] using hrest

/-- C10: from the constructor state (unmeasured layout), any event trace
containing no layout measurement leaves the layout unmeasured and fires no
host callback — presses are rejected by the `pointerEvents` gate; the first
layout event sets `measured` to true, and no step ever takes `measured`
back from true to false. -/
theorem no_press_before_layout (otp : Bool) (nav : NavigationState)
    (evs : List Event) (h : ∀ e ∈ evs, e.isLayout = false) :
    (runEvents otp nav (initialState nav) evs).1.layout.measured = false ∧
    (runEvents otp nav (initialState nav) evs).2 = [] ∧
    (∀ (w hgt : ℚ) (st : AnimationState),
      (handleLayout w hgt st).layout.measured = true) ∧
    (∀ (st : AnimationState) (e : Event), st.layout.measured = true →
      (step otp nav st e).1.layout.measured = true) := by
  have hinit : (initialState nav).layout.measured = false := rfl
  have hmain := runEvents_no_layout otp nav (initialState nav) evs hinit h
  refine ⟨hmain.1, hmain.2, fun _ _ _ => rfl, ?_⟩
  intro st e hm
  cases e with
  | layout w hgt => rfl
  | press i =>
    simp only [step]
    rcases Decidable.em (pointerEventsEnabled st = true) with hp | hp <;>
      simp [hp, hm]

/-- Witness for `no_press_before_layout`: two presses before any layout on
the three-route component produce no host callback. -/
theorem no_press_before_layout_witness :
    (runEvents true ⟨0, routesABC⟩ (initialState ⟨0, routesABC⟩)
      [Event.press 0, Event.press 1]).2 = [] :=
  (no_press_before_layout true ⟨0, routesABC⟩ [Event.press 0, Event.press 1]
    (by decide)).2.1
